import Mathlib

/-!
Verification development for the Traefik7 L7-settings conversion engine.

The embedding below follows the Go sources `pkg/parser/auto_detect.go`
(tokenizer), `pkg/parser/command_parser.go` (command parser) and
`pkg/parser/parser.go` (command processor and config generators).

Modelling conventions:
* Go strings are indexed byte by byte (`rune(t.input[t.pos])`), so a character
  of the model stands for one input byte; the character classes below
  reproduce Go's `unicode.IsLetter`/`IsDigit`/`IsSpace` on the byte range
  0..255, which is exhaustive for the byte-wise reads the source performs.
* The tokenizer state (`pos`, `current`, one-character lookahead) is
  represented by the list of not-yet-consumed characters: `current` is the
  head (0 when the list is empty, exactly as Go yields rune 0 at EOF),
  and `readChar` is `tail` plus the line/column bookkeeping of the source.
* Go maps are modelled extensionally: the command's `Parameters` map is an
  association list written only through `paramsPut` (replace the existing
  key, i.e. last occurrence wins) and read through `paramsGet` (zero value
  `""` for a missing key, as Go map indexing); the generators' maps that are
  built from slices keyed by `Name` are modelled by `last insert wins`
  lookup functions over those slices.
* Fallible Go functions returning `(..., error)` become `Except String _`.
-/

namespace Traefik7

/-- Byte-wise `unicode.IsSpace`: the white-space characters in 0..255. -/
def goIsSpace (c : Char) : Bool :=
  decide (c.toNat = 32 ∨ c.toNat = 9 ∨ c.toNat = 10 ∨ c.toNat = 11 ∨
    c.toNat = 12 ∨ c.toNat = 13 ∨ c.toNat = 133 ∨ c.toNat = 160)

/-- Byte-wise `unicode.IsLetter`: ASCII letters plus the Latin-1 letters. -/
def goIsLetter (c : Char) : Bool :=
  decide ((65 ≤ c.toNat ∧ c.toNat ≤ 90) ∨ (97 ≤ c.toNat ∧ c.toNat ≤ 122) ∨
    c.toNat = 170 ∨ c.toNat = 181 ∨ c.toNat = 186 ∨
    (192 ≤ c.toNat ∧ c.toNat ≤ 214) ∨ (216 ≤ c.toNat ∧ c.toNat ≤ 246) ∨
    (248 ≤ c.toNat ∧ c.toNat ≤ 255))

/-- Byte-wise `unicode.IsDigit`: the ASCII digits. -/
def goIsDigit (c : Char) : Bool :=
  decide (48 ≤ c.toNat ∧ c.toNat ≤ 57)

/-- Characters accepted inside an identifier (`readIdentifier`). -/
def goIsIdentChar (c : Char) : Bool :=
  goIsLetter c || goIsDigit c || decide (c = '_' ∨ c = '-' ∨ c = ':' ∨ c = '.')

/-- Characters accepted after the dash of a parameter flag (`readParameter`). -/
def goIsParamChar (c : Char) : Bool :=
  goIsLetter c || goIsDigit c || decide (c = '_')

/-- ASCII lower-casing of one character, as used for keyword lookup.
Keywords are all ASCII, so this agrees with Go's `strings.ToLower` on
every comparison the source performs. -/
def charLower (c : Char) : Char :=
  if 'A' ≤ c ∧ c ≤ 'Z' then Char.ofNat (c.toNat + 32) else c

/-- ASCII lower-casing of a string (see `charLower`). -/
def asciiLower (s : String) : String :=
  String.mk (s.toList.map charLower)

/-- TokenType of `auto_detect.go`, constructors in source (iota) order. -/
inductive TokenType where
  | TokenAdd | TokenBind | TokenSet | TokenUnbind | TokenRemove | TokenLink
  | TokenServer | TokenLB | TokenVServer | TokenServiceGroup | TokenMonitor
  | TokenAudit | TokenAuthentication | TokenCache | TokenCS | TokenDNS
  | TokenRoute | TokenResponder | TokenRewrite | TokenPolicy | TokenPolicyLabel
  | TokenAction | TokenContentGroup | TokenNameServer | TokenAddRec | TokenNSRec
  | TokenSSL | TokenSystem | TokenTM | TokenTunnel | TokenAAA | TokenAppflow
  | TokenCMP | TokenNS | TokenSubscriber | TokenVPN | TokenDB
  | TokenNslogAction | TokenSyslogAction | TokenSyslogPolicy | TokenNoAuthAction
  | TokenTacacsAction | TokenTacacsPolicy | TokenCertKey | TokenCmdPolicy
  | TokenNslogGlobal | TokenSyslogGlobal | TokenGlobal | TokenPatset
  | TokenService | TokenUser | TokenGroup | TokenParam | TokenDiameter
  | TokenEncryptionParams | TokenHttpParam | TokenHttpProfile | TokenRpcNode
  | TokenTcpbufParam | TokenGxInterface
  | TokenIdentifier | TokenString | TokenNumber | TokenIP
  | TokenParameterFlag
  | TokenEOF | TokenError
deriving DecidableEq, Fintype

/-- Numeric value of a TokenType: Go declares the type with `iota`, and
`fmt`'s `%v` prints that integer in the parser's error messages. -/
def tokenTypeNum : TokenType → Nat
  | .TokenAdd => 0 | .TokenBind => 1 | .TokenSet => 2 | .TokenUnbind => 3
  | .TokenRemove => 4 | .TokenLink => 5
  | .TokenServer => 6 | .TokenLB => 7 | .TokenVServer => 8
  | .TokenServiceGroup => 9 | .TokenMonitor => 10 | .TokenAudit => 11
  | .TokenAuthentication => 12 | .TokenCache => 13 | .TokenCS => 14
  | .TokenDNS => 15 | .TokenRoute => 16 | .TokenResponder => 17
  | .TokenRewrite => 18 | .TokenPolicy => 19 | .TokenPolicyLabel => 20
  | .TokenAction => 21 | .TokenContentGroup => 22 | .TokenNameServer => 23
  | .TokenAddRec => 24 | .TokenNSRec => 25 | .TokenSSL => 26
  | .TokenSystem => 27 | .TokenTM => 28 | .TokenTunnel => 29
  | .TokenAAA => 30 | .TokenAppflow => 31 | .TokenCMP => 32
  | .TokenNS => 33 | .TokenSubscriber => 34 | .TokenVPN => 35 | .TokenDB => 36
  | .TokenNslogAction => 37 | .TokenSyslogAction => 38 | .TokenSyslogPolicy => 39
  | .TokenNoAuthAction => 40 | .TokenTacacsAction => 41 | .TokenTacacsPolicy => 42
  | .TokenCertKey => 43 | .TokenCmdPolicy => 44 | .TokenNslogGlobal => 45
  | .TokenSyslogGlobal => 46 | .TokenGlobal => 47 | .TokenPatset => 48
  | .TokenService => 49 | .TokenUser => 50 | .TokenGroup => 51
  | .TokenParam => 52 | .TokenDiameter => 53 | .TokenEncryptionParams => 54
  | .TokenHttpParam => 55 | .TokenHttpProfile => 56 | .TokenRpcNode => 57
  | .TokenTcpbufParam => 58 | .TokenGxInterface => 59
  | .TokenIdentifier => 60 | .TokenString => 61 | .TokenNumber => 62
  | .TokenIP => 63 | .TokenParameterFlag => 64 | .TokenEOF => 65
  | .TokenError => 66

/-- Lexical token: the Go struct's `Type` field is called `ttype` here
because `Type` is reserved in Lean. -/
structure Token where
  ttype : TokenType
  value : String
  line : Nat
  column : Nat
deriving DecidableEq

/-- Tokenizer state: the not-yet-consumed characters (head = `t.current`,
empty list = rune 0 at EOF) plus the line/column counters. -/
structure TState where
  stream : List Char
  line : Nat
  column : Nat
deriving DecidableEq

/-- Current character of a stream: its head, or the rune 0 at end of input. -/
def streamCur (l : List Char) : Char := l.headD '\x00'

/-- Current character of the tokenizer (`t.current`). -/
def current (st : TState) : Char := streamCur st.stream

/-- Line counter update performed by `readChar` once the new current
character is known (`rest` is the stream after consuming). -/
def advLine (rest : List Char) (line : Nat) : Nat :=
  if streamCur rest = '\n' then line + 1 else line

/-- Column counter update performed by `readChar` (see `advLine`). -/
def advCol (rest : List Char) (col : Nat) : Nat :=
  if streamCur rest = '\n' then 1 else col + 1

/-- The source's `readChar`: drop the current character and update the
position counters from the new current character. -/
def readChar (st : TState) : TState :=
  ⟨st.stream.tail, advLine st.stream.tail st.line, advCol st.stream.tail st.column⟩

/-- `NewTokenizer` starts at line 1 / column 1 and immediately calls
`readChar`, so the initial counters already account for the first
character. -/
def initTState (input : List Char) : TState :=
  ⟨input, advLine input 1, advCol input 1⟩

/-- White-space skipping. `skipWhitespace` stops at `'\n'`, but `NextToken`'s
`'\n'`/`'\r'` arm then consumes the newline and recurses into itself, which
re-runs `skipWhitespace`; the net effect, reproduced here, is that all
white space including newlines before the next token is consumed (`'\r'`
is already consumed by `skipWhitespace` itself, so that arm is dead code). -/
def skipSpaces : List Char → Nat → Nat → TState
  | [], line, col => ⟨[], line, col⟩
  | c :: rest, line, col =>
    if goIsSpace c then skipSpaces rest (advLine rest line) (advCol rest col)
    else ⟨c :: rest, line, col⟩

/-- White-space skipping on a tokenizer state (see `skipSpaces`). -/
def skipAllSpace (st : TState) : TState :=
  skipSpaces st.stream st.line st.column

/-- Body of `readString`: consume until the closing quote `q` or end of
input, treating a backslash as an escape (the escaped character is copied
verbatim); the closing quote is consumed, a missing one is tolerated. -/
def readStrAux (q : Char) : List Char → Nat → Nat → List Char → (List Char × TState)
  | [], line, col, acc => (acc, ⟨[], line, col⟩)
  | c :: rest, line, col, acc =>
    if c = q then (acc, ⟨rest, advLine rest line, advCol rest col⟩)
    else if c = '\x00' then (acc, ⟨c :: rest, line, col⟩)
    else if c = '\\' then
      match rest with
      | [] => (acc, ⟨[], advLine ([] : List Char) line, advCol [] col⟩)
      | d :: rest' =>
        if d = '\x00' then
          (acc, ⟨d :: rest', advLine (d :: rest') line, advCol (d :: rest') col⟩)
        else
          readStrAux q rest' (advLine rest' (advLine (d :: rest') line))
            (advCol rest' (advCol (d :: rest') col)) (acc ++ [d])
    else readStrAux q rest (advLine rest line) (advCol rest col) (acc ++ [c])

/-- Body of `readIdentifier`: the maximal run of identifier characters. -/
def readIdentAux : List Char → Nat → Nat → List Char → (List Char × TState)
  | [], line, col, acc => (acc, ⟨[], line, col⟩)
  | c :: rest, line, col, acc =>
    if goIsIdentChar c then
      readIdentAux rest (advLine rest line) (advCol rest col) (acc ++ [c])
    else (acc, ⟨c :: rest, line, col⟩)

/-- Body of `readParameter` after the leading dash: letters, digits and
underscores. -/
def readParamAux : List Char → Nat → Nat → List Char → (List Char × TState)
  | [], line, col, acc => (acc, ⟨[], line, col⟩)
  | c :: rest, line, col, acc =>
    if goIsParamChar c then
      readParamAux rest (advLine rest line) (advCol rest col) (acc ++ [c])
    else (acc, ⟨c :: rest, line, col⟩)

/-- The source's `strings.Split(s, ".")`: split at every dot, keeping empty
parts. -/
def splitDotAux : List Char → List Char → List (List Char)
  | [], acc => [acc.reverse]
  | c :: rest, acc =>
    if c = '.' then acc.reverse :: splitDotAux rest [] else splitDotAux rest (c :: acc)

/-- `isIPAddress`: four dot-separated groups of one to three digits. -/
def isIPAddress (s : String) : Bool :=
  let parts := splitDotAux s.toList []
  decide (parts.length = 4) &&
    parts.all (fun p => decide (1 ≤ p.length) && decide (p.length ≤ 3) && p.all goIsDigit)

/-- All-digits test used as the numeric-literal fallback of `getKeywordType`. -/
def allDigits (s : String) : Bool := s.toList.all goIsDigit

/-- `getKeywordType`: case-insensitive keyword lookup, then the IP-address
shape, then all-digits numeric, else a generic identifier. -/
def getKeywordType (value : String) : TokenType :=
  match asciiLower value with
  | "add" => .TokenAdd
  | "bind" => .TokenBind
  | "set" => .TokenSet
  | "unbind" => .TokenUnbind
  | "remove" => .TokenRemove
  | "link" => .TokenLink
  | "server" => .TokenServer
  | "lb" => .TokenLB
  | "vserver" => .TokenVServer
  | "servicegroup" => .TokenServiceGroup
  | "monitor" => .TokenMonitor
  | "audit" => .TokenAudit
  | "authentication" => .TokenAuthentication
  | "cache" => .TokenCache
  | "cs" => .TokenCS
  | "dns" => .TokenDNS
  | "route" => .TokenRoute
  | "responder" => .TokenResponder
  | "rewrite" => .TokenRewrite
  | "policy" => .TokenPolicy
  | "policylabel" => .TokenPolicyLabel
  | "action" => .TokenAction
  | "contentgroup" => .TokenContentGroup
  | "nameserver" => .TokenNameServer
  | "addrec" => .TokenAddRec
  | "nsrec" => .TokenNSRec
  | "ssl" => .TokenSSL
  | "system" => .TokenSystem
  | "tm" => .TokenTM
  | "tunnel" => .TokenTunnel
  | "aaa" => .TokenAAA
  | "appflow" => .TokenAppflow
  | "cmp" => .TokenCMP
  | "ns" => .TokenNS
  | "subscriber" => .TokenSubscriber
  | "vpn" => .TokenVPN
  | "db" => .TokenDB
  | "nslogaction" => .TokenNslogAction
  | "syslogaction" => .TokenSyslogAction
  | "syslogpolicy" => .TokenSyslogPolicy
  | "noauthaction" => .TokenNoAuthAction
  | "tacacsaction" => .TokenTacacsAction
  | "tacacspolicy" => .TokenTacacsPolicy
  | "certkey" => .TokenCertKey
  | "cmdpolicy" => .TokenCmdPolicy
  | "nslogglobal" => .TokenNslogGlobal
  | "syslogglobal" => .TokenSyslogGlobal
  | "global" => .TokenGlobal
  | "patset" => .TokenPatset
  | "service" => .TokenService
  | "user" => .TokenUser
  | "group" => .TokenGroup
  | "parameter" => .TokenParam
  | "param" => .TokenParam
  | "diameter" => .TokenDiameter
  | "encryptionparams" => .TokenEncryptionParams
  | "httpparam" => .TokenHttpParam
  | "httpprofile" => .TokenHttpProfile
  | "rpcnode" => .TokenRpcNode
  | "tcpbufparam" => .TokenTcpbufParam
  | "gxinterface" => .TokenGxInterface
  | _ =>
    if isIPAddress value then .TokenIP
    else if allDigits value then .TokenNumber
    else .TokenIdentifier

/-- `NextToken`: skip white space (including the dead `'\n'`/`'\r'` arm,
see `skipSpaces`), then classify by the current character. -/
def nextToken (st : TState) : Token × TState :=
  let st1 := skipAllSpace st
  let c := current st1
  if c = '\x00' then
    ({ ttype := .TokenEOF, value := "", line := st1.line, column := st1.column }, st1)
  else if c = '"' ∨ c = Char.ofNat 39 then
    let st2 := readChar st1
    let r := readStrAux c st2.stream st2.line st2.column []
    ({ ttype := .TokenString, value := String.mk r.1, line := st1.line, column := st1.column }, r.2)
  else if c = '-' then
    let st2 := readChar st1
    let r := readParamAux st2.stream st2.line st2.column [c]
    ({ ttype := .TokenParameterFlag, value := String.mk r.1, line := st1.line, column := st1.column }, r.2)
  else if c = '.' then
    ({ ttype := .TokenIdentifier, value := ".", line := st1.line, column := st1.column }, readChar st1)
  else if goIsLetter c || goIsDigit c || c = '_' then
    let r := readIdentAux st1.stream st1.line st1.column []
    let v := String.mk r.1
    ({ ttype := getKeywordType v, value := v, line := st1.line, column := st1.column }, r.2)
  else
    ({ ttype := .TokenError, value := "unexpected character: " ++ String.mk [c],
       line := st1.line, column := st1.column }, readChar st1)

/-- Loop of `TokenizeCommand`: collect tokens until EOF or an error token.
Every non-final iteration consumes at least one character, so the fuel
passed by `tokenizeCommand` (input length + 1) is never exhausted. -/
def tokenizeLoop : Nat → TState → List Token
  | 0, _ => []
  | fuel + 1, st =>
    let r := nextToken st
    if r.1.ttype = .TokenEOF ∨ r.1.ttype = .TokenError then [r.1]
    else r.1 :: tokenizeLoop fuel r.2

/-- `TokenizeCommand`: tokenize one command line. -/
def tokenizeCommand (command : String) : List Token :=
  tokenizeLoop (command.toList.length + 1) (initTState command.toList)

/-- Parsed command (`F5Command`): `Parameters` is Go's `map[string]string`,
kept as an association list written only through `paramsPut`. -/
structure F5Command where
  Action : String
  ObjectType : String
  Name : String
  Arguments : List String
  Parameters : List (String × String)
deriving DecidableEq

/-- Map write `params[k] = v`: replace the value of an existing key,
otherwise add the pair (so the last occurrence of a flag wins). -/
def paramsPut : List (String × String) → String → String → List (String × String)
  | [], k, v => [(k, v)]
  | (k', v') :: ps, k, v =>
    if k' = k then (k, v) :: ps else (k', v') :: paramsPut ps k v

/-- Map read `params[k]` as an `Option`. -/
def paramsLookup (ps : List (String × String)) (k : String) : Option String :=
  (ps.find? (fun p => decide (p.1 = k))).map (fun p => p.2)

/-- Map read `params[k]` with Go's zero value `""` for a missing key. -/
def paramsGet (ps : List (String × String)) (k : String) : String :=
  (paramsLookup ps k).getD ""

/-- Zero-value token: `readToken` past the end of the stream yields
`Token{Type: TokenEOF}` with empty value and zero position. -/
def eofDefault : Token := ⟨.TokenEOF, "", 0, 0⟩

/-- Current token of the command parser: the head of the remaining token
list, or the zero-value EOF token once the list is exhausted. -/
def currentTok (toks : List Token) : Token := toks.headD eofDefault

/-- Action keywords accepted by `parseAction`. -/
def isActionTok : TokenType → Bool
  | .TokenAdd | .TokenBind | .TokenSet | .TokenUnbind | .TokenRemove | .TokenLink => true
  | _ => false

/-- Token classes that `parseObjectType` consumes (the big `switch` over the
object-type keywords, merged with the separate `TokenIdentifier` case that
behaves identically). -/
def isObjTypeStart : TokenType → Bool
  | .TokenServer | .TokenLB | .TokenVServer | .TokenServiceGroup | .TokenMonitor
  | .TokenAudit | .TokenAuthentication | .TokenCache | .TokenCS | .TokenDNS
  | .TokenRoute | .TokenResponder | .TokenRewrite | .TokenPolicy | .TokenPolicyLabel
  | .TokenAction | .TokenContentGroup | .TokenNameServer | .TokenAddRec | .TokenNSRec
  | .TokenSSL | .TokenSystem | .TokenTM | .TokenTunnel | .TokenAAA | .TokenAppflow
  | .TokenCMP | .TokenNS | .TokenSubscriber | .TokenVPN | .TokenDB
  | .TokenNslogAction | .TokenSyslogAction | .TokenSyslogPolicy
  | .TokenNoAuthAction | .TokenTacacsAction | .TokenTacacsPolicy
  | .TokenCertKey | .TokenCmdPolicy | .TokenNslogGlobal | .TokenSyslogGlobal
  | .TokenGlobal | .TokenPatset | .TokenService | .TokenUser | .TokenGroup
  | .TokenParam | .TokenDiameter | .TokenEncryptionParams | .TokenHttpParam
  | .TokenHttpProfile | .TokenRpcNode | .TokenTcpbufParam | .TokenGxInterface
  | .TokenIdentifier => true
  | _ => false

/-- The source's `isNextObjectType` check: the token classes that let the
compound object-type loop continue. Note this list is strictly smaller than
`isObjTypeStart`: it has neither `TokenIdentifier` nor `TokenPolicyLabel`
nor any of the sub-type keywords from `TokenNslogGlobal` onwards. -/
def isObjTypeCont : TokenType → Bool
  | .TokenServer | .TokenLB | .TokenVServer | .TokenServiceGroup | .TokenMonitor
  | .TokenAudit | .TokenAuthentication | .TokenCache | .TokenCS | .TokenDNS
  | .TokenRoute | .TokenResponder | .TokenRewrite | .TokenPolicy
  | .TokenAction | .TokenContentGroup | .TokenNameServer | .TokenAddRec | .TokenNSRec
  | .TokenSSL | .TokenSystem | .TokenTM | .TokenTunnel | .TokenAAA | .TokenAppflow
  | .TokenCMP | .TokenNS | .TokenSubscriber | .TokenVPN | .TokenDB
  | .TokenNslogAction | .TokenSyslogAction | .TokenSyslogPolicy
  | .TokenNoAuthAction | .TokenTacacsAction | .TokenTacacsPolicy
  | .TokenCertKey | .TokenCmdPolicy => true
  | _ => false

/-- Token classes accepted directly by `parseObjectName` and as a
parameter value by `parseParameters`. -/
def isParamValueTok : TokenType → Bool
  | .TokenString | .TokenIdentifier | .TokenNumber | .TokenIP => true
  | _ => false

/-- `strings.Join(parts, " ")`. -/
def joinSpaceChars : List String → List Char
  | [] => []
  | p :: rest =>
    match rest with
    | [] => p.toList
    | _ => p.toList ++ ' ' :: joinSpaceChars rest

/-- Space-joined object-type parts (see `joinSpaceChars`). -/
def joinSpace (parts : List String) : String := String.mk (joinSpaceChars parts)

/-- `parseAction`: one of the six action keywords, else a syntax error
(`%v` on the Go `TokenType` prints its `iota` integer, see `tokenTypeNum`). -/
def parseAction (toks : List Token) : Except String (String × List Token) :=
  let t := currentTok toks
  if isActionTok t.ttype then .ok (t.value, toks.tail)
  else
    .error ("expected action (add, bind, set, etc.), got " ++
      Nat.repr (tokenTypeNum t.ttype) ++ " at line " ++ Nat.repr t.line)

/-- Loop of `parseObjectType`: consume the current token when it is an
object-type keyword or identifier, then stop at EOF or a parameter flag,
continue only when the next token passes `isObjTypeCont`. -/
def parseObjectTypeAux : List String → List Token → (List String × List Token)
  | parts, [] => (parts, [])
  | parts, t :: rest =>
    if isObjTypeStart t.ttype then
      let parts' := parts ++ [t.value]
      let next := currentTok rest
      if next.ttype = .TokenEOF ∨ next.ttype = .TokenParameterFlag then (parts', rest)
      else if isObjTypeCont next.ttype then parseObjectTypeAux parts' rest
      else (parts', rest)
    else (parts, t :: rest)

/-- `parseObjectType`: at least one token must have been consumed, the
parts are joined with single spaces. -/
def parseObjectType (toks : List Token) : Except String (String × List Token) :=
  let r := parseObjectTypeAux [] toks
  if r.1.isEmpty then
    let t := currentTok r.2
    .error ("expected object type (server, lb vserver, serviceGroup, etc.), got " ++
      Nat.repr (tokenTypeNum t.ttype) ++ " (" ++ t.value ++ ") at line " ++ Nat.repr t.line)
  else .ok (joinSpace r.1, r.2)

/-- `parseObjectName`: string/identifier/number/IP, or — as a deliberate
tolerance — any non-EOF, non-flag token with a non-empty value. -/
def parseObjectName (toks : List Token) : Except String (String × List Token) :=
  let t := currentTok toks
  if isParamValueTok t.ttype then .ok (t.value, toks.tail)
  else if t.ttype ≠ .TokenEOF ∧ t.ttype ≠ .TokenParameterFlag ∧ t.value ≠ "" then
    .ok (t.value, toks.tail)
  else
    .error ("expected object name (string, identifier, number, or IP), got " ++
      Nat.repr (tokenTypeNum t.ttype) ++ " (" ++ t.value ++ ") at line " ++ Nat.repr t.line)

/-- `parseArguments`: positional arguments until EOF or a parameter flag;
a token with an empty value also stops the loop. -/
def parseArgumentsAux : List String → List Token → (List String × List Token)
  | args, [] => (args, [])
  | args, t :: rest =>
    if t.ttype = .TokenEOF ∨ t.ttype = .TokenParameterFlag then (args, t :: rest)
    else if t.value ≠ "" then parseArgumentsAux (args ++ [t.value]) rest
    else (args, t :: rest)

/-- `parseParameters`: `(-flag, value)` pairs; the value is the single
following token's literal when it is string/identifier/number/IP-typed
(that token is then consumed), otherwise the parameter is recorded with an
empty value and the following token is left in place. A trailing flag at
end of input is likewise recorded with an empty value. -/
def parseParametersAux : List (String × String) → List Token → (List (String × String) × List Token)
  | ps, [] => (ps, [])
  | ps, [t] =>
    if t.ttype = .TokenParameterFlag then (paramsPut ps t.value "", []) else (ps, [t])
  | ps, t :: v :: rest' =>
    if t.ttype = .TokenParameterFlag then
      if isParamValueTok v.ttype then parseParametersAux (paramsPut ps t.value v.value) rest'
      else parseParametersAux (paramsPut ps t.value "") (v :: rest')
    else (ps, t :: v :: rest')

/-- `ParseCommand`: action, object type, object name, positional arguments,
named parameters; whatever tokens remain after the parameter section are
dropped without error. -/
def ParseCommand (toks : List Token) : Except String F5Command :=
  if (currentTok toks).ttype = .TokenEOF then .error "empty command"
  else
    match parseAction toks with
    | .error e => .error e
    | .ok (action, t1) =>
      match parseObjectType t1 with
      | .error e => .error e
      | .ok (objectType, t2) =>
        match parseObjectName t2 with
        | .error e => .error e
        | .ok (name, t3) =>
          let r4 := parseArgumentsAux [] t3
          let r5 := parseParametersAux [] r4.2
          .ok ⟨action, objectType, name, r4.1, r5.1⟩

/-- `strings.TrimSpace` on the byte-wise space class (`goIsSpace`). -/
def trimChars (l : List Char) : List Char :=
  ((l.dropWhile goIsSpace).reverse.dropWhile goIsSpace).reverse

/-- Trim of a string (see `trimChars`). -/
def goTrim (s : String) : String := String.mk (trimChars s.toList)

/-- `strings.HasPrefix(s, "#")`. -/
def hashPrefixed (s : String) : Bool :=
  match s.toList with
  | [] => false
  | c :: _ => decide (c = '#')

/-- `ParseF5Command`: trim, skip blank and comment lines (`Ok none`),
report the first error token before parsing, else parse the command. -/
def ParseF5Command (commandLine : String) : Except String (Option F5Command) :=
  let l := goTrim commandLine
  if l = "" then .ok none
  else if hashPrefixed l then .ok none
  else
    let toks := tokenizeCommand l
    match toks.find? (fun t => decide (t.ttype = .TokenError)) with
    | some t => .error ("tokenization error: " ++ t.value)
    | none =>
      match ParseCommand toks with
      | .error e => .error e
      | .ok cmd => .ok (some cmd)

/-- ServerInfo of the domain model. -/
structure ServerInfo where
  Name : String
  IP : String
  Comment : String
deriving DecidableEq

/-- VServerInfo of the domain model. -/
structure VServerInfo where
  Name : String
  Protocol : String
  IP : String
  Port : String
deriving DecidableEq

/-- ServiceGroup binding of the domain model; the source's `Ratio` field is
called `RatioVal` here for Lean naming reasons. -/
structure ServiceGroup where
  Name : String
  ServerName : String
  Port : String
  Comment : String
  Disabled : Bool
  RatioVal : Int
  LoadBalancingMode : String
deriving DecidableEq

/-- ServiceGroupDef of the domain model. -/
structure ServiceGroupDef where
  Name : String
  Protocol : String
  Comment : String
deriving DecidableEq

/-- VServerBinding of the domain model; the source's `Type` field is called
`BindType` here because `Type` is reserved in Lean. -/
structure VServerBinding where
  VServerName : String
  ServiceName : String
  PolicyName : String
  Priority : String
  GotoExpression : String
  BindType : String
  Comment : String
deriving DecidableEq

/-- The five collections a parse run populates. -/
structure Collections where
  servers : List ServerInfo
  vservers : List VServerInfo
  serviceGroupDefs : List ServiceGroupDef
  serviceGroups : List ServiceGroup
  vserverBindings : List VServerBinding
deriving DecidableEq

/-- Collections at the start of a parse run: all empty. -/
def initCollections : Collections := ⟨[], [], [], [], []⟩

/-- Object-type normalization of the dispatchers:
`strings.ToLower(strings.ReplaceAll(objectType, " ", ""))`. -/
def normalizeObjectType (s : String) : String :=
  asciiLower (String.mk (s.toList.filter (fun c => decide (c ≠ ' '))))

/-- `handleAddServer`: requires the IP-address argument, appends one
ServerInfo with the `-comment` parameter as comment. -/
def handleAddServer (cmd : F5Command) (servers : List ServerInfo) :
    Except String (List ServerInfo) :=
  match cmd.Arguments with
  | [] => .error "add server command requires IP address argument"
  | ip :: _ =>
    .ok (servers ++ [{ Name := cmd.Name, IP := ip,
                       Comment := paramsGet cmd.Parameters "-comment" }])

/-- `handleAddLBVServer`: requires protocol, IP and port arguments. -/
def handleAddLBVServer (cmd : F5Command) (vservers : List VServerInfo) :
    Except String (List VServerInfo) :=
  match cmd.Arguments with
  | protocol :: ip :: port :: _ =>
    .ok (vservers ++ [{ Name := cmd.Name, Protocol := protocol, IP := ip, Port := port }])
  | _ => .error "add lb vserver command requires protocol, IP, and port arguments"

/-- `handleAddServiceGroup`: protocol is the first argument when present. -/
def handleAddServiceGroup (cmd : F5Command) (sgDefs : List ServiceGroupDef) :
    Except String (List ServiceGroupDef) :=
  let protocol := match cmd.Arguments with
    | [] => ""
    | p :: _ => p
  .ok (sgDefs ++ [{ Name := cmd.Name, Protocol := protocol,
                    Comment := paramsGet cmd.Parameters "-comment" }])

/-- `handleBindServiceGroup`: a command whose `-monitorName` parameter is
non-empty is skipped entirely; otherwise the first two arguments (server
name and port) are required and one binding is appended (the remaining
ServiceGroup fields keep their Go zero values). -/
def handleBindServiceGroup (cmd : F5Command) (serviceGroups : List ServiceGroup) :
    Except String (List ServiceGroup) :=
  if paramsGet cmd.Parameters "-monitorName" ≠ "" then .ok serviceGroups
  else
    match cmd.Arguments with
    | serverName :: port :: _ =>
      .ok (serviceGroups ++ [{ Name := cmd.Name, ServerName := serverName, Port := port,
                               Comment := paramsGet cmd.Parameters "-comment",
                               Disabled := false, RatioVal := 0, LoadBalancingMode := "" }])
    | _ => .error "bind serviceGroup command requires server name and port arguments"

/-- `handleBindLBVServer`: always appends one binding; the service name is
the first argument only when it does not begin with a dash. -/
def handleBindLBVServer (cmd : F5Command) (vserverBindings : List VServerBinding) :
    Except String (List VServerBinding) :=
  let serviceName := match cmd.Arguments with
    | [] => ""
    | a :: _ => if (a.toList.headD '\x00') = '-' then "" else a
  .ok (vserverBindings ++
    [{ VServerName := cmd.Name, ServiceName := serviceName,
       PolicyName := paramsGet cmd.Parameters "-policyName",
       Priority := paramsGet cmd.Parameters "-priority",
       GotoExpression := paramsGet cmd.Parameters "-gotoPriorityExpression",
       BindType := paramsGet cmd.Parameters "-type",
       Comment := paramsGet cmd.Parameters "-comment" }])

/-- `handleAddCommand`: dispatch on the normalized object type; unknown
object types are ignored. -/
def handleAddCommand (cmd : F5Command) (c : Collections) : Except String Collections :=
  let objectType := normalizeObjectType cmd.ObjectType
  if objectType = "server" then
    match handleAddServer cmd c.servers with
    | .error e => .error e
    | .ok servers => .ok { c with servers := servers }
  else if objectType = "lbvserver" then
    match handleAddLBVServer cmd c.vservers with
    | .error e => .error e
    | .ok vservers => .ok { c with vservers := vservers }
  else if objectType = "servicegroup" then
    match handleAddServiceGroup cmd c.serviceGroupDefs with
    | .error e => .error e
    | .ok sgDefs => .ok { c with serviceGroupDefs := sgDefs }
  else .ok c

/-- `handleBindCommand`: dispatch on the normalized object type; unknown
object types are ignored. -/
def handleBindCommand (cmd : F5Command) (serviceGroups : List ServiceGroup)
    (vserverBindings : List VServerBinding) :
    Except String (List ServiceGroup × List VServerBinding) :=
  let objectType := normalizeObjectType cmd.ObjectType
  if objectType = "servicegroup" then
    match handleBindServiceGroup cmd serviceGroups with
    | .error e => .error e
    | .ok sgs => .ok (sgs, vserverBindings)
  else if objectType = "lbvserver" then
    match handleBindLBVServer cmd vserverBindings with
    | .error e => .error e
    | .ok vbs => .ok (serviceGroups, vbs)
  else .ok (serviceGroups, vserverBindings)

/-- `handleSetCommand`: set commands are ignored. -/
def handleSetCommand (_cmd : F5Command) (c : Collections) : Except String Collections :=
  .ok c

/-- Dispatch of the run loop on the command's action; unknown actions are
skipped without error. -/
def processCommand (cmd : F5Command) (c : Collections) : Except String Collections :=
  match cmd.Action with
  | "add" => handleAddCommand cmd c
  | "bind" =>
    match handleBindCommand cmd c.serviceGroups c.vserverBindings with
    | .error e => .error e
    | .ok r => .ok { c with serviceGroups := r.1, vserverBindings := r.2 }
  | "set" => handleSetCommand cmd c
  | _ => .ok c

/-- One iteration of `ParseL7SettingsFromReader`'s loop for line number `n`:
trim, skip blank and comment lines, parse, process, and wrap any error as
`line {n}: {cause}`. -/
def processLine (n : Nat) (raw : String) (c : Collections) : Except String Collections :=
  let line := goTrim raw
  if line = "" then .ok c
  else if hashPrefixed line then .ok c
  else
    match ParseF5Command line with
    | .error e => .error ("line " ++ Nat.repr n ++ ": " ++ e)
    | .ok none => .ok c
    | .ok (some cmd) =>
      match processCommand cmd c with
      | .error e => .error ("line " ++ Nat.repr n ++ ": " ++ e)
      | .ok c' => .ok c'

/-- Run loop of `ParseL7SettingsFromReader`, counting lines from `n`. -/
def parseRunAux : Nat → List String → Collections → Except String Collections
  | _, [], c => .ok c
  | n, l :: ls, c =>
    match processLine n l c with
    | .error e => .error e
    | .ok c' => parseRunAux (n + 1) ls c'

/-- `ParseL7SettingsFromReader`: fold the lines over empty collections
with 1-based line numbers. -/
def parseRun (lines : List String) : Except String Collections :=
  parseRunAux 1 lines initCollections

/-- `strings.HasPrefix(pre, s)` for the statements below. -/
def strStarts (s pre : String) : Bool := pre.toList.isPrefixOf s.toList

/-- Traefik server entry of the generated config. -/
structure TraefikServer where
  URL : String
  Comment : String
  Disabled : Bool
deriving DecidableEq

/-- Traefik service entry of the generated config. -/
structure TraefikService where
  Servers : List TraefikServer
  Comment : String
  LoadBalancingMode : String
deriving DecidableEq

/-- Mapping entry of the generated mapping config. -/
structure MappingEntry where
  Key : String
  Value : String
  Comment : String
deriving DecidableEq

/-- Mapping config. -/
structure MappingConfig where
  Entries : List MappingEntry
deriving DecidableEq

/-- Go's `serverMap` built by iterating the servers slice: the last insert
for a name wins. -/
def lookupServer (servers : List ServerInfo) (name : String) : Option ServerInfo :=
  servers.reverse.find? (fun s => decide (s.Name = name))

/-- Go's `serviceGroupDefMap` (last insert for a name wins). -/
def lookupSgDef (sgDefs : List ServiceGroupDef) (name : String) : Option ServiceGroupDef :=
  sgDefs.reverse.find? (fun d => decide (d.Name = name))

/-- Inner loop of `GenerateTraefikConfig` over one group's bindings:
collect the resolvable servers and thread the service-level comment
(bind comments are consulted only while it is still empty, and only for
bindings whose server resolves). -/
def buildGroupServers (servers : List ServerInfo) :
    List ServiceGroup → String → (List TraefikServer × String)
  | [], comment => ([], comment)
  | g :: gs, comment =>
    match lookupServer servers g.ServerName with
    | some si =>
      let ts : TraefikServer :=
        { URL := "http://" ++ si.IP ++ ":" ++ g.Port, Comment := si.Comment, Disabled := false }
      let comment' := if comment = "" ∧ g.Comment ≠ "" then g.Comment else comment
      let r := buildGroupServers servers gs comment'
      (ts :: r.1, r.2)
    | none => buildGroupServers servers gs comment

/-- One service of `GenerateTraefikConfig`'s output map: `none` when the
name has no bindings or none of its bindings resolves to a known server.
The definition comment is seeded first (priority), bind comments only fill
an empty one. -/
def traefikServiceFor (servers : List ServerInfo) (sgDefs : List ServiceGroupDef)
    (sgs : List ServiceGroup) (name : String) : Option TraefikService :=
  let groups := sgs.filter (fun g => decide (g.Name = name))
  if groups.isEmpty then none
  else
    let sc0 := match lookupSgDef sgDefs name with
      | some d => if d.Comment ≠ "" then d.Comment else ""
      | none => ""
    let r := buildGroupServers servers groups sc0
    if r.1.isEmpty then none
    else some { Servers := r.1, Comment := r.2, LoadBalancingMode := "" }

/-- `GenerateTraefikConfig`: the Go `map[string]TraefikService` is modelled
extensionally as the lookup function over service names (`vservers` is
accepted and unused, as in the source). -/
def GenerateTraefikConfig (servers : List ServerInfo) (_vservers : List VServerInfo)
    (sgDefs : List ServiceGroupDef) (sgs : List ServiceGroup) :
    String → Option TraefikService :=
  fun name => traefikServiceFor servers sgDefs sgs name

/-- Comment of one mapping entry: the service-group definition comment has
priority, else the first non-empty bind comment for the name. -/
def mappingCommentFor (sgDefs : List ServiceGroupDef) (sgs : List ServiceGroup)
    (name : String) : String :=
  let c1 := match lookupSgDef sgDefs name with
    | some d => if d.Comment ≠ "" then d.Comment else ""
    | none => ""
  if c1 ≠ "" then c1
  else
    match (sgs.filter (fun g => decide (g.Name = name))).find? (fun g => decide (g.Comment ≠ "")) with
    | some g => g.Comment
    | none => ""

/-- `GenerateMappingConfig`: one `{ip}:{port} -> {name}@nacoscs` entry per
vserver, in slice order, with the comment precedence of
`mappingCommentFor`. -/
def GenerateMappingConfig (vservers : List VServerInfo) (sgDefs : List ServiceGroupDef)
    (sgs : List ServiceGroup) : MappingConfig :=
  { Entries := vservers.map (fun v =>
      { Key := v.IP ++ ":" ++ v.Port, Value := v.Name ++ "@nacoscs",
        Comment := mappingCommentFor sgDefs sgs v.Name }) }

/-- Success test on a parse result. -/
def exceptIsOk {α : Type} (e : Except String α) : Bool :=
  match e with
  | .ok _ => true
  | .error _ => false

/-- Characters that begin no token class of `nextToken`: not end of input,
not a newline, not a quote, dash or dot, not an identifier start and not
white space — exactly the characters of `NextToken`'s error arm. -/
def startsNoTokenClass (c : Char) : Bool :=
  !(decide (c = '\x00') || decide (c = '\n') || decide (c = '\r') ||
    decide (c = '"') || decide (c = Char.ofNat 39) || decide (c = '-') ||
    decide (c = '.') || goIsLetter c || goIsDigit c || decide (c = '_') ||
    goIsSpace c)

/-- Lookup after a write of the same key returns the written value: the
`Parameters` map records the last occurrence of a flag. -/
theorem paramsGet_paramsPut (ps : List (String × String)) (k v : String) :
    paramsGet (paramsPut ps k v) k = v := by
  induction ps with
  | nil => simp [paramsPut, paramsGet, paramsLookup]
  | cons p ps ih =>
    obtain ⟨k', v'⟩ := p
    by_cases h : k' = k
    · simp [paramsPut, h, paramsGet, paramsLookup]
    · simpa [paramsPut, h, paramsGet, paramsLookup, List.find?] using ih

/-- C7: at a parameter flag, `parseParameters` records the single following
token's literal exactly when that token is string-, identifier-, number- or
IP-typed and then consumes it; for any other following token the flag is
recorded with the empty value and the token is not consumed. -/
theorem c7_parameter_value (ps : List (String × String)) (t v : Token) (rest' : List Token)
    (hf : t.ttype = TokenType.TokenParameterFlag) :
    (isParamValueTok v.ttype = true →
      parseParametersAux ps (t :: v :: rest') =
        parseParametersAux (paramsPut ps t.value v.value) rest')
    ∧ (isParamValueTok v.ttype = false →
      parseParametersAux ps (t :: v :: rest') =
        parseParametersAux (paramsPut ps t.value "") (v :: rest'))
    ∧ paramsGet (paramsPut ps t.value v.value) t.value = v.value := by
  refine ⟨fun hv => ?_, fun hv => ?_, paramsGet_paramsPut ..⟩
  · simp [parseParametersAux, hf, hv]
  · simp [parseParametersAux, hf, hv]

/-- Witness for C7 at a concrete `-comment "hello"` pair. -/
theorem c7_parameter_value_witness :
    parseParametersAux [] [⟨.TokenParameterFlag, "-comment", 1, 1⟩, ⟨.TokenString, "hello", 1, 10⟩] =
      parseParametersAux [("-comment", "hello")] []
    ∧ paramsGet [("-comment", "hello")] "-comment" = "hello" := by
  have h := c7_parameter_value [] ⟨.TokenParameterFlag, "-comment", 1, 1⟩
    ⟨.TokenString, "hello", 1, 10⟩ [] rfl
  exact ⟨h.1 rfl, h.2.2⟩

/-- C2 (amended): a parsed `bind` command with normalized object type
`servicegroup` whose `-monitorName` parameter is present with a non-empty
value is discarded: no binding is appended and no error is returned. -/
theorem c2_monitor_binding_skipped (cmd : F5Command) (c : Collections)
    (ha : cmd.Action = "bind")
    (ht : normalizeObjectType cmd.ObjectType = "servicegroup")
    (hm : paramsGet cmd.Parameters "-monitorName" ≠ "") :
    processCommand cmd c = .ok c := by
  unfold processCommand
  rw [ha]
  simp [handleBindCommand, handleBindServiceGroup, ht, hm]

/-- Witness for C2 (amended) at a concrete monitor binding. -/
theorem c2_monitor_binding_skipped_witness :
    processCommand ⟨"bind", "serviceGroup", "g", ["s", "80"], [("-monitorName", "tcp")]⟩
      initCollections = .ok initCollections :=
  c2_monitor_binding_skipped _ _ rfl rfl (by decide)

/-- C2 counterexample: the claim quantifies over commands in which a
`-monitorName` parameter is merely present; the code only skips the line
when the parameter's value is non-empty, so a parsed command carrying
`-monitorName` with the empty value (a trailing valueless flag) does get a
ServiceGroupBinding appended. -/
theorem c2_counterexample :
    ParseF5Command "bind serviceGroup g s 80 -monitorName" =
      .ok (some ⟨"bind", "serviceGroup", "g", ["s", "80"], [("-monitorName", "")]⟩)
    ∧ normalizeObjectType "serviceGroup" = "servicegroup"
    ∧ (paramsLookup [("-monitorName", "")] "-monitorName").isSome = true
    ∧ processCommand ⟨"bind", "serviceGroup", "g", ["s", "80"], [("-monitorName", "")]⟩
        initCollections = .ok ⟨[], [], [], [⟨"g", "s", "80", "", false, 0, ""⟩], []⟩ :=
  ⟨rfl, rfl, rfl, rfl⟩

/-- C3: a parsed `bind` command with normalized object type `lbvserver` and
no positional arguments appends exactly one VServerBinding whose service
name is empty and whose policy name and priority come from the
`-policyName` and `-priority` parameters. -/
theorem c3_policy_only_binding (cmd : F5Command) (c : Collections) (p r : String)
    (ha : cmd.Action = "bind")
    (ht : normalizeObjectType cmd.ObjectType = "lbvserver")
    (hargs : cmd.Arguments = [])
    (hp : paramsGet cmd.Parameters "-policyName" = p)
    (hr : paramsGet cmd.Parameters "-priority" = r) :
    processCommand cmd c = .ok { c with vserverBindings := c.vserverBindings ++
      [{ VServerName := cmd.Name, ServiceName := "", PolicyName := p, Priority := r,
         GotoExpression := paramsGet cmd.Parameters "-gotoPriorityExpression",
         BindType := paramsGet cmd.Parameters "-type",
         Comment := paramsGet cmd.Parameters "-comment" }] } := by
  unfold processCommand
  rw [ha]
  simp [handleBindCommand, handleBindLBVServer, ht, hargs, hp, hr]

/-- Witness for C3 at a concrete policy-only binding. -/
theorem c3_policy_only_binding_witness :
    processCommand ⟨"bind", "lb vserver", "v", [], [("-policyName", "foo"), ("-priority", "10")]⟩
      initCollections =
      .ok ⟨[], [], [], [], [⟨"v", "", "foo", "10", "", "", ""⟩]⟩ :=
  c3_policy_only_binding _ _ "foo" "10" rfl rfl rfl rfl rfl

/-- C4: a parsed `add` command with normalized object type `server` and at
least one positional argument appends exactly one ServerInfo whose name is
the parsed object name, whose IP is the first positional argument and whose
comment is the `-comment` parameter's value — the empty string when the
parameter is absent. -/
theorem c4_add_server (cmd : F5Command) (c : Collections) (ip : String) (rest : List String)
    (ha : cmd.Action = "add")
    (ht : normalizeObjectType cmd.ObjectType = "server")
    (hargs : cmd.Arguments = ip :: rest) :
    processCommand cmd c = .ok { c with servers := c.servers ++
      [{ Name := cmd.Name, IP := ip, Comment := paramsGet cmd.Parameters "-comment" }] }
    ∧ (paramsLookup cmd.Parameters "-comment" = none →
        paramsGet cmd.Parameters "-comment" = "")
    ∧ (∀ v, paramsLookup cmd.Parameters "-comment" = some v →
        paramsGet cmd.Parameters "-comment" = v) := by
  refine ⟨?_, fun h => by simp [paramsGet, h], fun v h => by simp [paramsGet, h]⟩
  unfold processCommand
  rw [ha]
  simp [handleAddCommand, handleAddServer, ht, hargs]

/-- Witness for C4 at a concrete `add server` command with a comment. -/
theorem c4_add_server_witness :
    processCommand ⟨"add", "server", "web01", ["10.1.2.121"], [("-comment", "x")]⟩
      initCollections = .ok ⟨[⟨"web01", "10.1.2.121", "x"⟩], [], [], [], []⟩ :=
  (c4_add_server ⟨"add", "server", "web01", ["10.1.2.121"], [("-comment", "x")]⟩
    initCollections "10.1.2.121" [] rfl rfl rfl).1

/-- Continuation object-type classes are a subset of the classes the loop
can consume. -/
theorem isObjTypeCont_isObjTypeStart :
    ∀ tt, isObjTypeCont tt = true → isObjTypeStart tt = true := by decide

/-- Characterization of the compound object-type loop: once a consumable
token has been consumed, the loop greedily takes exactly the following
tokens that pass `isObjTypeCont`. -/
theorem parseObjectTypeAux_eq (rest : List Token) :
    ∀ (parts : List String) (t : Token), isObjTypeStart t.ttype = true →
    parseObjectTypeAux parts (t :: rest) =
      (parts ++ t.value :: (rest.takeWhile (fun x => isObjTypeCont x.ttype)).map Token.value,
       rest.dropWhile (fun x => isObjTypeCont x.ttype)) := by
  induction rest with
  | nil =>
    intro parts t ht
    simp [parseObjectTypeAux, ht, currentTok, eofDefault]
  | cons u rest' ih =>
    intro parts t ht
    by_cases hu : isObjTypeCont u.ttype
    · have hu' : isObjTypeStart u.ttype = true := isObjTypeCont_isObjTypeStart _ hu
      have heof : u.ttype ≠ TokenType.TokenEOF := by
        intro h; rw [h] at hu; exact absurd hu (by decide)
      have hflag : u.ttype ≠ TokenType.TokenParameterFlag := by
        intro h; rw [h] at hu; exact absurd hu (by decide)
      rw [List.takeWhile_cons, List.dropWhile_cons]
      simp only [hu, if_true]
      have hstep : parseObjectTypeAux parts (t :: u :: rest') =
          parseObjectTypeAux (parts ++ [t.value]) (u :: rest') := by
        simp [parseObjectTypeAux, ht, currentTok, heof, hflag, hu]
      rw [hstep, ih (parts ++ [t.value]) u hu']
      simp
    · rw [List.takeWhile_cons, List.dropWhile_cons]
      simp only [hu, if_false]
      by_cases hef : u.ttype = TokenType.TokenEOF ∨ u.ttype = TokenType.TokenParameterFlag
      · simp [parseObjectTypeAux, ht, currentTok, hef]
      · simp [parseObjectTypeAux, ht, currentTok, hef, hu]

/-- C1 (amended): `parseObjectType` consumes a first token of any
object-type-keyword class or a generic identifier, then exactly the
following tokens whose class passes the `isNextObjectType` continuation
check (`isObjTypeCont`) — generic identifiers, `policyLabel` and the
sub-type keywords from `nslogGlobal` onwards never continue a compound
type — joining the consumed values with single spaces; it stops at
end-of-input, a parameter flag, or any non-continuation token, and it fails
with a syntax error when it cannot consume at least one token. -/
theorem c1_object_type_amended (t : Token) (rest : List Token) :
    (isObjTypeStart t.ttype = true →
      parseObjectType (t :: rest) =
        .ok (joinSpace (t.value ::
               (rest.takeWhile (fun x => isObjTypeCont x.ttype)).map Token.value),
             rest.dropWhile (fun x => isObjTypeCont x.ttype)))
    ∧ (isObjTypeStart t.ttype = false →
        exceptIsOk (parseObjectType (t :: rest)) = false)
    ∧ exceptIsOk (parseObjectType ([] : List Token)) = false := by
  refine ⟨fun ht => ?_, fun ht => ?_, by simp [parseObjectType, parseObjectTypeAux, exceptIsOk]⟩
  · unfold parseObjectType
    rw [parseObjectTypeAux_eq rest [] t ht]
    simp
  · unfold parseObjectType
    have h0 : parseObjectTypeAux [] (t :: rest) = ([], t :: rest) := by
      simp [parseObjectTypeAux, ht]
    rw [h0]
    simp [exceptIsOk]

/-- Witness for C1 (amended) on the tokens of `lb vserver v1`. -/
theorem c1_object_type_amended_witness :
    parseObjectType
        [⟨.TokenLB, "lb", 1, 2⟩, ⟨.TokenVServer, "vserver", 1, 5⟩,
         ⟨.TokenIdentifier, "v1", 1, 13⟩, ⟨.TokenEOF, "", 1, 15⟩] =
      .ok ("lb vserver", [⟨.TokenIdentifier, "v1", 1, 13⟩, ⟨.TokenEOF, "", 1, 15⟩]) :=
  (c1_object_type_amended ⟨.TokenLB, "lb", 1, 2⟩
    [⟨.TokenVServer, "vserver", 1, 5⟩, ⟨.TokenIdentifier, "v1", 1, 13⟩,
     ⟨.TokenEOF, "", 1, 15⟩]).1 rfl

/-- C1 counterexample: after consuming `server`, the next token `web01` is
a generic identifier — by the claim an object-type-class token, and neither
end-of-input nor a parameter flag — yet the loop stops before it, because
the continuation check accepts only keyword classes. -/
theorem c1_counterexample :
    parseObjectType (tokenizeCommand "server web01 10.1.2.3") =
      .ok ("server", (tokenizeCommand "server web01 10.1.2.3").drop 1)
    ∧ (currentTok ((tokenizeCommand "server web01 10.1.2.3").drop 1)).ttype =
        TokenType.TokenIdentifier
    ∧ isObjTypeStart
        (currentTok ((tokenizeCommand "server web01 10.1.2.3").drop 1)).ttype = true
    ∧ (currentTok ((tokenizeCommand "server web01 10.1.2.3").drop 1)).ttype ≠
        TokenType.TokenEOF
    ∧ (currentTok ((tokenizeCommand "server web01 10.1.2.3").drop 1)).ttype ≠
        TokenType.TokenParameterFlag :=
  ⟨rfl, rfl, rfl, by decide, by decide⟩

/-- Action keywords are never the EOF class. -/
theorem isActionTok_ne_eof (tt : TokenType) (h : isActionTok tt = true) :
    tt ≠ TokenType.TokenEOF := by
  intro h0; rw [h0] at h; exact absurd h (by decide)

/-- C10: `ParseCommand` never requires the token stream to be fully
consumed: once action, object type and object name have parsed, the command
is assembled from the argument and parameter sections alone and whatever
tokens `parseParameters` leaves behind are dropped, with no error and no
record of them in the result. -/
theorem c10_trailing_tokens_dropped (toks t1 t2 t3 : List Token) (a o n : String)
    (h1 : parseAction toks = .ok (a, t1))
    (h2 : parseObjectType t1 = .ok (o, t2))
    (h3 : parseObjectName t2 = .ok (n, t3)) :
    ParseCommand toks =
      .ok ⟨a, o, n, (parseArgumentsAux [] t3).1,
           (parseParametersAux [] (parseArgumentsAux [] t3).2).1⟩ := by
  have hne : (currentTok toks).ttype ≠ TokenType.TokenEOF := by
    by_cases hact : isActionTok (currentTok toks).ttype = true
    · exact isActionTok_ne_eof _ hact
    · exact absurd h1 (by simp [parseAction, hact])
  unfold ParseCommand
  rw [if_neg hne]
  simp [h1, h2, h3]

/-- Witness for C10: after the valueless `-enabled` flag the keyword token
`server` stops the parameter section; it and `extra` are discarded and the
line still parses. -/
theorem c10_trailing_tokens_dropped_witness :
    ParseCommand (tokenizeCommand "add server x 1.1.1.1 -enabled server extra") =
      .ok ⟨"add", "server", "x", ["1.1.1.1"], [("-enabled", "")]⟩
    ∧ (parseParametersAux []
        (parseArgumentsAux []
          ((tokenizeCommand "add server x 1.1.1.1 -enabled server extra").drop 3)).2).2 ≠ [] := by
  refine ⟨?_, by decide⟩
  exact c10_trailing_tokens_dropped
    (tokenizeCommand "add server x 1.1.1.1 -enabled server extra")
    ((tokenizeCommand "add server x 1.1.1.1 -enabled server extra").drop 1)
    ((tokenizeCommand "add server x 1.1.1.1 -enabled server extra").drop 2)
    ((tokenizeCommand "add server x 1.1.1.1 -enabled server extra").drop 3)
    "add" "server" "x" rfl rfl rfl

/-- Shape of `handleBindCommand`'s successful results: unchanged, one
binding appended to the service groups, or one appended to the vserver
bindings. -/
theorem handleBindCommand_shape (cmd : F5Command) (sgs : List ServiceGroup)
    (vbs : List VServerBinding) (sgs' : List ServiceGroup) (vbs' : List VServerBinding)
    (h : handleBindCommand cmd sgs vbs = .ok (sgs', vbs')) :
    (sgs' = sgs ∧ vbs' = vbs)
    ∨ (∃ e, sgs' = sgs ++ [e] ∧ vbs' = vbs)
    ∨ (∃ e, sgs' = sgs ∧ vbs' = vbs ++ [e]) := by
  by_cases h1 : normalizeObjectType cmd.ObjectType = "servicegroup"
  · by_cases hm : paramsGet cmd.Parameters "-monitorName" = ""
    · rcases hargs : cmd.Arguments with _ | ⟨s, args1⟩
      · simp [handleBindCommand, handleBindServiceGroup, h1, hm, hargs] at h
      · rcases args1 with _ | ⟨p, args2⟩
        · simp [handleBindCommand, handleBindServiceGroup, h1, hm, hargs] at h
        · simp [handleBindCommand, handleBindServiceGroup, h1, hm, hargs] at h
          exact Or.inr (Or.inl ⟨_, h.1.symm, h.2.symm⟩)
    · simp [handleBindCommand, handleBindServiceGroup, h1, hm] at h
      exact Or.inl ⟨h.1.symm, h.2.symm⟩
  · by_cases h2 : normalizeObjectType cmd.ObjectType = "lbvserver"
    · simp [handleBindCommand, handleBindLBVServer, h1, h2] at h
      exact Or.inr (Or.inr ⟨_, h.1.symm, h.2.symm⟩)
    · simp [handleBindCommand, h1, h2] at h
      exact Or.inl ⟨h.1.symm, h.2.symm⟩

/-- Shape of `processCommand`'s successful results: every command either
leaves the collections unchanged or appends exactly one entry at the end of
exactly one collection. -/
theorem processCommand_shape (cmd : F5Command) (c c' : Collections)
    (h : processCommand cmd c = .ok c') :
    c' = c
    ∨ (∃ e, c' = { c with servers := c.servers ++ [e] })
    ∨ (∃ e, c' = { c with vservers := c.vservers ++ [e] })
    ∨ (∃ e, c' = { c with serviceGroupDefs := c.serviceGroupDefs ++ [e] })
    ∨ (∃ e, c' = { c with serviceGroups := c.serviceGroups ++ [e] })
    ∨ (∃ e, c' = { c with vserverBindings := c.vserverBindings ++ [e] }) := by
  unfold processCommand at h
  split at h
  · by_cases h1 : normalizeObjectType cmd.ObjectType = "server"
    · rcases hargs : cmd.Arguments with _ | ⟨ip, args1⟩
      · simp [handleAddCommand, handleAddServer, h1, hargs] at h
      · simp [handleAddCommand, handleAddServer, h1, hargs] at h
        exact Or.inr (Or.inl ⟨_, h.symm⟩)
    · by_cases h2 : normalizeObjectType cmd.ObjectType = "lbvserver"
      · rcases hargs : cmd.Arguments with _ | ⟨p1, _ | ⟨p2, _ | ⟨p3, args3⟩⟩⟩
        · simp [handleAddCommand, handleAddLBVServer, h1, h2, hargs] at h
        · simp [handleAddCommand, handleAddLBVServer, h1, h2, hargs] at h
        · simp [handleAddCommand, handleAddLBVServer, h1, h2, hargs] at h
        · simp [handleAddCommand, handleAddLBVServer, h1, h2, hargs] at h
          exact Or.inr (Or.inr (Or.inl ⟨_, h.symm⟩))
      · by_cases h3 : normalizeObjectType cmd.ObjectType = "servicegroup"
        · simp [handleAddCommand, handleAddServiceGroup, h1, h2, h3] at h
          exact Or.inr (Or.inr (Or.inr (Or.inl ⟨_, h.symm⟩)))
        · simp [handleAddCommand, h1, h2, h3] at h
          exact Or.inl h.symm
  · split at h
    · simp at h
    · rename_i r heq
      simp at h
      obtain hb := handleBindCommand_shape cmd c.serviceGroups c.vserverBindings r.1 r.2 heq
      rcases hb with ⟨hs, hv⟩ | ⟨e, hs, hv⟩ | ⟨e, hs, hv⟩
      · exact Or.inl (by rw [← h]; cases c; simp_all)
      · exact Or.inr (Or.inr (Or.inr (Or.inr (Or.inl ⟨e, by rw [← h]; cases c; simp_all⟩))))
      · exact Or.inr (Or.inr (Or.inr (Or.inr (Or.inr ⟨e, by rw [← h]; cases c; simp_all⟩))))
  · unfold handleSetCommand at h
    simp at h
    exact Or.inl h.symm
  · simp at h
    exact Or.inl h.symm

/-- C8: the five collections start a parse run empty, and processing any
single line either leaves every collection unchanged or appends exactly one
entry at the end of exactly one collection — entries are never modified,
removed or reordered, and duplicates are appended like anything else. -/
theorem c8_collections_monotonic :
    initCollections.servers = [] ∧ initCollections.vservers = [] ∧
    initCollections.serviceGroupDefs = [] ∧ initCollections.serviceGroups = [] ∧
    initCollections.vserverBindings = [] ∧
    ∀ (n : Nat) (line : String) (c c' : Collections), processLine n line c = .ok c' →
      c' = c
      ∨ (∃ e, c' = { c with servers := c.servers ++ [e] })
      ∨ (∃ e, c' = { c with vservers := c.vservers ++ [e] })
      ∨ (∃ e, c' = { c with serviceGroupDefs := c.serviceGroupDefs ++ [e] })
      ∨ (∃ e, c' = { c with serviceGroups := c.serviceGroups ++ [e] })
      ∨ (∃ e, c' = { c with vserverBindings := c.vserverBindings ++ [e] }) := by
  refine ⟨rfl, rfl, rfl, rfl, rfl, ?_⟩
  intro n line c c' h
  unfold processLine at h
  dsimp only at h
  split_ifs at h with h1 h2
  · simp at h
    exact Or.inl h.symm
  · simp at h
    exact Or.inl h.symm
  · split at h
    · simp at h
    · simp at h
      exact Or.inl h.symm
    · split at h
      · simp at h
      · rename_i c'' heq
        simp at h
        rw [← h]
        exact processCommand_shape _ _ _ heq

/-- Witness for C8: one `add server` line appends exactly one server. -/
theorem c8_collections_monotonic_witness :
    (⟨[⟨"web01", "10.0.0.1", ""⟩], [], [], [], []⟩ : Collections) = initCollections
    ∨ (∃ e, (⟨[⟨"web01", "10.0.0.1", ""⟩], [], [], [], []⟩ : Collections) =
        { initCollections with servers := initCollections.servers ++ [e] })
    ∨ (∃ e, (⟨[⟨"web01", "10.0.0.1", ""⟩], [], [], [], []⟩ : Collections) =
        { initCollections with vservers := initCollections.vservers ++ [e] })
    ∨ (∃ e, (⟨[⟨"web01", "10.0.0.1", ""⟩], [], [], [], []⟩ : Collections) =
        { initCollections with serviceGroupDefs := initCollections.serviceGroupDefs ++ [e] })
    ∨ (∃ e, (⟨[⟨"web01", "10.0.0.1", ""⟩], [], [], [], []⟩ : Collections) =
        { initCollections with serviceGroups := initCollections.serviceGroups ++ [e] })
    ∨ (∃ e, (⟨[⟨"web01", "10.0.0.1", ""⟩], [], [], [], []⟩ : Collections) =
        { initCollections with vserverBindings := initCollections.vserverBindings ++ [e] }) :=
  c8_collections_monotonic.2.2.2.2.2 1 "add server web01 10.0.0.1" initCollections
    ⟨[⟨"web01", "10.0.0.1", ""⟩], [], [], [], []⟩ rfl

/-- Bind comments never replace a non-empty service comment while the
group's servers are collected. -/
theorem buildGroupServers_comment_ne (servers : List ServerInfo) (gs : List ServiceGroup)
    (comment : String) (h : comment ≠ "") :
    (buildGroupServers servers gs comment).2 = comment := by
  induction gs with
  | nil => simp [buildGroupServers]
  | cons g gs ih =>
    unfold buildGroupServers
    cases lookupServer servers g.ServerName with
    | none => exact ih
    | some si =>
      simp only []
      rw [if_neg (by intro hc; exact h hc.1)]
      exact ih

/-- C9: when a service-group definition with a non-empty comment exists for
a name, both generators use that comment: every Traefik service emitted for
the name carries it, and the mapping comment for the name equals it; the
mapping entries are exactly the per-vserver entries built from
`mappingCommentFor`, so a binding's comment can only be used when the
definition's comment is absent or empty. -/
theorem c9_definition_comment_priority (servers : List ServerInfo)
    (vservers : List VServerInfo) (sgDefs : List ServiceGroupDef)
    (sgs : List ServiceGroup) (name : String) (d : ServiceGroupDef)
    (hd : lookupSgDef sgDefs name = some d) (hc : d.Comment ≠ "") :
    (∀ svc, GenerateTraefikConfig servers vservers sgDefs sgs name = some svc →
      svc.Comment = d.Comment)
    ∧ mappingCommentFor sgDefs sgs name = d.Comment
    ∧ (GenerateMappingConfig vservers sgDefs sgs).Entries =
        vservers.map (fun v =>
          { Key := v.IP ++ ":" ++ v.Port, Value := v.Name ++ "@nacoscs",
            Comment := mappingCommentFor sgDefs sgs v.Name }) := by
  refine ⟨?_, ?_, rfl⟩
  · intro svc h
    unfold GenerateTraefikConfig traefikServiceFor at h
    rw [hd] at h
    dsimp only at h
    rw [if_pos hc] at h
    split_ifs at h with hg hs
    simp only [Option.some.injEq] at h
    rw [← h]
    exact buildGroupServers_comment_ne servers _ d.Comment hc
  · unfold mappingCommentFor
    rw [hd]
    dsimp only
    rw [if_pos hc, if_pos hc]

/-- Witness for C9 at a concrete definition/binding comment pair. -/
theorem c9_definition_comment_priority_witness :
    (∀ svc, GenerateTraefikConfig [⟨"s1", "1.1.1.1", ""⟩] [⟨"g", "HTTP", "2.2.2.2", "80"⟩]
        [⟨"g", "HTTP", "defc"⟩] [⟨"g", "s1", "80", "bindc", false, 0, ""⟩] "g" = some svc →
      svc.Comment = "defc")
    ∧ mappingCommentFor [⟨"g", "HTTP", "defc"⟩] [⟨"g", "s1", "80", "bindc", false, 0, ""⟩] "g" =
        "defc"
    ∧ (GenerateMappingConfig [⟨"g", "HTTP", "2.2.2.2", "80"⟩] [⟨"g", "HTTP", "defc"⟩]
        [⟨"g", "s1", "80", "bindc", false, 0, ""⟩]).Entries =
        ([⟨"g", "HTTP", "2.2.2.2", "80"⟩] : List VServerInfo).map (fun v =>
          { Key := v.IP ++ ":" ++ v.Port, Value := v.Name ++ "@nacoscs",
            Comment := mappingCommentFor [⟨"g", "HTTP", "defc"⟩]
              [⟨"g", "s1", "80", "bindc", false, 0, ""⟩] v.Name }) :=
  c9_definition_comment_priority [⟨"s1", "1.1.1.1", ""⟩] [⟨"g", "HTTP", "2.2.2.2", "80"⟩]
    [⟨"g", "HTTP", "defc"⟩] [⟨"g", "s1", "80", "bindc", false, 0, ""⟩] "g"
    ⟨"g", "HTTP", "defc"⟩ rfl (by decide)

/-- An error token emitted by the tokenize loop is its last token, and no
earlier token is error-typed. -/
theorem tokenizeLoop_error_last (fuel : Nat) : ∀ (st : TState) (t : Token),
    t ∈ tokenizeLoop fuel st → t.ttype = TokenType.TokenError →
    tokenizeLoop fuel st = (tokenizeLoop fuel st).dropLast ++ [t]
    ∧ ∀ u ∈ (tokenizeLoop fuel st).dropLast, u.ttype ≠ TokenType.TokenError := by
  induction fuel with
  | zero =>
    intro st t ht _
    simp [tokenizeLoop] at ht
  | succ fuel ih =>
    intro st t ht herr
    by_cases h : (nextToken st).1.ttype = TokenType.TokenEOF ∨
        (nextToken st).1.ttype = TokenType.TokenError
    · rw [show tokenizeLoop (fuel + 1) st = [(nextToken st).1] by
          simp [tokenizeLoop, h]] at ht ⊢
      simp at ht
      subst ht
      simp
    · rw [show tokenizeLoop (fuel + 1) st =
            (nextToken st).1 :: tokenizeLoop fuel (nextToken st).2 by
          simp [tokenizeLoop, h]] at ht ⊢
      have hne : (nextToken st).1.ttype ≠ TokenType.TokenError := fun hh => h (Or.inr hh)
      have htl : t ∈ tokenizeLoop fuel (nextToken st).2 := by
        rcases List.mem_cons.mp ht with h0 | h0
        · exact absurd (h0 ▸ herr) hne
        · exact h0
      obtain ⟨h1, h2⟩ := ih (nextToken st).2 t htl herr
      have hnil : tokenizeLoop fuel (nextToken st).2 ≠ [] := by
        intro h0
        rw [h0] at htl
        simp at htl
      rw [List.dropLast_cons_of_ne_nil hnil]
      constructor
      · rw [List.cons_append]
        exact congrArg _ h1
      · intro u hu
        rcases List.mem_cons.mp hu with h0 | h0
        · rw [h0]; exact hne
        · exact h2 u h0

/-- Find over a list whose first part has no match searches the second
part. -/
theorem find?_append_no_match {α : Type} (p : α → Bool) :
    ∀ (l₁ l₂ : List α), (∀ u ∈ l₁, p u = false) →
    (l₁ ++ l₂).find? p = l₂.find? p := by
  intro l₁
  induction l₁ with
  | nil => intro l₂ _; simp
  | cons a l ih =>
    intro l₂ hall
    rw [List.cons_append, List.find?_cons]
    have ha : p a = false := hall a (by simp)
    rw [ha]
    exact ih l₂ (fun u hu => hall u (by simp [hu]))

/-- Error-token facts of `tokenizeCommand` (see `tokenizeLoop_error_last`). -/
theorem tokenizeCommand_error_last (s : String) (t : Token)
    (ht : t ∈ tokenizeCommand s) (herr : t.ttype = TokenType.TokenError) :
    tokenizeCommand s = (tokenizeCommand s).dropLast ++ [t]
    ∧ ∀ u ∈ (tokenizeCommand s).dropLast, u.ttype ≠ TokenType.TokenError :=
  tokenizeLoop_error_last _ _ t ht herr

/-- C6 (amended): whenever the tokenizer reaches, at a token-start
position, a character that begins no token class — equivalently, whenever
its output contains an error token — that error token is the only one, it
is the last token emitted for the line, and `ParseF5Command` surfaces the
tokenization error before any command parsing, so no structured command is
produced (comment lines are skipped before tokenization and are excluded). -/
theorem c6_error_token_last (l : String) (t : Token)
    (hh : hashPrefixed (goTrim l) = false)
    (ht : t ∈ tokenizeCommand (goTrim l))
    (herr : t.ttype = TokenType.TokenError) :
    (tokenizeCommand (goTrim l)).countP (fun x => decide (x.ttype = TokenType.TokenError)) = 1
    ∧ (tokenizeCommand (goTrim l)).getLast? = some t
    ∧ ParseF5Command l = .error ("tokenization error: " ++ t.value) := by
  obtain ⟨h1, h2⟩ := tokenizeCommand_error_last (goTrim l) t ht herr
  have hz : ((tokenizeCommand (goTrim l)).dropLast).countP
      (fun x => decide (x.ttype = TokenType.TokenError)) = 0 :=
    List.countP_eq_zero.mpr (fun u hu => by simp [h2 u hu])
  refine ⟨?_, ?_, ?_⟩
  · rw [h1, List.countP_append, hz]
    simp [List.countP_cons, herr]
  · rw [h1]
    exact List.getLast?_concat _
  · have hne : goTrim l ≠ "" := by
      intro h0
      rw [h0] at ht
      rw [show tokenizeCommand "" = [⟨.TokenEOF, "", 1, 2⟩] from rfl] at ht
      simp at ht
      rw [ht] at herr
      exact absurd herr (by decide)
    unfold ParseF5Command
    dsimp only
    rw [if_neg hne, if_neg (by simp [hh])]
    rw [h1, find?_append_no_match _ _ _ (fun u hu => by simp [h2 u hu])]
    simp [List.find?, herr]

/-- Witness for C6 (amended) on the line `@`. -/
theorem c6_error_token_last_witness :
    (tokenizeCommand (goTrim "@")).countP
        (fun x => decide (x.ttype = TokenType.TokenError)) = 1
    ∧ (tokenizeCommand (goTrim "@")).getLast? =
        some ⟨.TokenError, "unexpected character: @", 1, 2⟩
    ∧ ParseF5Command "@" = .error "tokenization error: unexpected character: @" :=
  c6_error_token_last "@" ⟨.TokenError, "unexpected character: @", 1, 2⟩ rfl (by decide) rfl

/-- C6 counterexample: the line `add server "a@b" 1.2.3.4` contains the
character `@`, which starts no token class, yet the tokenizer emits no
error token for the line (the character sits inside a quoted string) and a
structured command is produced. -/
theorem c6_counterexample :
    '@' ∈ "add server \"a@b\" 1.2.3.4".toList
    ∧ startsNoTokenClass '@' = true
    ∧ (tokenizeCommand "add server \"a@b\" 1.2.3.4").countP
        (fun x => decide (x.ttype = TokenType.TokenError)) = 0
    ∧ ParseF5Command "add server \"a@b\" 1.2.3.4" =
        .ok (some ⟨"add", "server", "a@b", ["1.2.3.4"], []⟩) :=
  ⟨by decide, rfl, rfl, rfl⟩

/-- Head of a `dropWhile` result fails the predicate. -/
theorem dropWhile_head_false {α : Type} (p : α → Bool) :
    ∀ (l : List α) (c : α) (t : List α), l.dropWhile p = c :: t → p c = false := by
  intro l
  induction l with
  | nil => intro c t h; simp at h
  | cons a l ih =>
    intro c t h
    rw [List.dropWhile_cons] at h
    by_cases pa : p a = true
    · rw [if_pos pa] at h
      exact ih c t h
    · rw [if_neg pa] at h
      cases h
      simpa using pa

/-- Dropping twice is dropping once. -/
theorem dropWhile_dropWhile {α : Type} (p : α → Bool) (l : List α) :
    (l.dropWhile p).dropWhile p = l.dropWhile p := by
  cases h : l.dropWhile p with
  | nil => simp
  | cons c t =>
    rw [List.dropWhile_cons, dropWhile_head_false p l c t h]
    simp

/-- A `dropWhile` result is a suffix of the list. -/
theorem dropWhile_suffix_ex {α : Type} (p : α → Bool) :
    ∀ (l : List α), ∃ pre, l = pre ++ l.dropWhile p := by
  intro l
  induction l with
  | nil => exact ⟨[], rfl⟩
  | cons a l ih =>
    by_cases pa : p a = true
    · obtain ⟨pre, hp⟩ := ih
      refine ⟨a :: pre, ?_⟩
      rw [List.dropWhile_cons, if_pos pa, List.cons_append, ← hp]
    · refine ⟨[], ?_⟩
      rw [List.dropWhile_cons, if_neg pa]
      rfl

/-- Trimming is idempotent. -/
theorem trimChars_idem (l : List Char) : trimChars (trimChars l) = trimChars l := by
  unfold trimChars
  set A := l.dropWhile goIsSpace with hA
  set w := A.reverse.dropWhile goIsSpace with hw
  have hstep1 : w.reverse.dropWhile goIsSpace = w.reverse := by
    cases hc : w.reverse with
    | nil => simp
    | cons c t =>
      obtain ⟨pre, hpre⟩ := dropWhile_suffix_ex goIsSpace A.reverse
      have hA2 : A = w.reverse ++ pre.reverse := by
        have h0 := congrArg List.reverse hpre
        rw [List.reverse_reverse, List.reverse_append] at h0
        rw [h0, hw]
      have hAc : l.dropWhile goIsSpace = c :: (t ++ pre.reverse) := by
        rw [← hA, hA2, hc]
        simp
      have hcsp : goIsSpace c = false := dropWhile_head_false goIsSpace l c _ hAc
      rw [List.dropWhile_cons, hcsp]
      simp
  have hstep2 : w.dropWhile goIsSpace = w := by
    rw [hw]
    exact dropWhile_dropWhile goIsSpace A.reverse
  rw [hstep1, List.reverse_reverse, hstep2]

/-- Trimming a string is idempotent. -/
theorem goTrim_idem (s : String) : goTrim (goTrim s) = goTrim s := by
  unfold goTrim
  rw [show (String.mk (trimChars s.toList)).toList = trimChars s.toList from rfl,
    trimChars_idem]

/-- The run loop over a split input: process the first part, then continue
with the line counter advanced by its length. -/
theorem parseRunAux_append (xs ys : List String) : ∀ (n : Nat) (c : Collections),
    parseRunAux n (xs ++ ys) c =
      match parseRunAux n xs c with
      | .error e => .error e
      | .ok c' => parseRunAux (n + xs.length) ys c' := by
  induction xs with
  | nil => intro n c; simp [parseRunAux]
  | cons x xs ih =>
    intro n c
    rw [List.cons_append]
    cases h : processLine n x c with
    | error e => simp [parseRunAux, h]
    | ok c' =>
      simp only [parseRunAux, h]
      rw [ih (n + 1) c']
      have harith : n + 1 + xs.length = n + (x :: xs).length := by
        simp [List.length_cons]
        omega
      rw [harith]

/-- A list is a starting segment of itself followed by anything. -/
theorem isPrefixOf_self_append {α : Type} [BEq α] [LawfulBEq α] :
    ∀ (l m : List α), l.isPrefixOf (l ++ m) = true := by
  intro l
  induction l with
  | nil => intro m; simp [List.isPrefixOf]
  | cons a l ih => intro m; simp [List.isPrefixOf, ih]

/-- A string starts with its own leading part. -/
theorem strStarts_append (p suffix : String) : strStarts (p ++ suffix) p = true := by
  unfold strStarts
  rw [show (p ++ suffix).toList = p.toList ++ suffix.toList from rfl]
  exact isPrefixOf_self_append _ _

/-- C5 (amended): when every line before line N processes without error and
line N parses to an `add server` command with no positional argument, the
whole run fails with the message `line N: add server command requires IP
address argument` — which begins with `line N: ` — and processing that
command appends nothing: it returns the error before touching any
collection. -/
theorem c5_missing_ip_line_error (pre : List String) (line : String) (rest : List String)
    (c : Collections) (cmd : F5Command)
    (hpre : parseRunAux 1 pre initCollections = .ok c)
    (hparse : ParseF5Command (goTrim line) = .ok (some cmd))
    (ha : cmd.Action = "add")
    (ht : normalizeObjectType cmd.ObjectType = "server")
    (hargs : cmd.Arguments = []) :
    parseRun (pre ++ line :: rest) =
      .error ("line " ++ Nat.repr (pre.length + 1) ++
        ": add server command requires IP address argument")
    ∧ strStarts ("line " ++ Nat.repr (pre.length + 1) ++
        ": add server command requires IP address argument")
        ("line " ++ Nat.repr (pre.length + 1) ++ ": ") = true
    ∧ processCommand cmd c = .error "add server command requires IP address argument" := by
  have hcat : ∀ x : String, (x ++ ": ") ++ "add server command requires IP address argument" =
      x ++ ": add server command requires IP address argument" := by
    intro x
    rw [String.append_assoc]
    congr 1
  have hproc : processCommand cmd c =
      .error "add server command requires IP address argument" := by
    unfold processCommand
    rw [ha]
    simp [handleAddCommand, handleAddServer, ht, hargs]
  have hne : goTrim line ≠ "" := by
    intro h0
    rw [h0, show ParseF5Command "" = .ok none from rfl] at hparse
    simp at hparse
  have hhash : hashPrefixed (goTrim line) = false := by
    by_contra h0
    rw [Bool.not_eq_false] at h0
    unfold ParseF5Command at hparse
    dsimp only at hparse
    rw [goTrim_idem, if_neg hne, if_pos h0] at hparse
    simp at hparse
  refine ⟨?_, ?_, hproc⟩
  · have hpl : processLine (1 + pre.length) line c =
        .error ("line " ++ Nat.repr (1 + pre.length) ++
          ": " ++ "add server command requires IP address argument") := by
      unfold processLine
      dsimp only
      rw [if_neg hne, if_neg (by simp [hhash]), hparse]
      dsimp only
      rw [hproc]
    unfold parseRun
    rw [parseRunAux_append, hpre]
    dsimp only
    unfold parseRunAux
    rw [hpl]
    rw [Nat.add_comm 1 pre.length] at hpl ⊢
    rw [hcat]
  · rw [← hcat]
    exact strStarts_append _ _

/-- Witness for C5 (amended): line 2 of a three-line input is the malformed
`add server web02`. -/
theorem c5_missing_ip_line_error_witness :
    parseRun ["add server web01 10.1.2.121", "add server web02", "# end"] =
      .error "line 2: add server command requires IP address argument"
    ∧ strStarts "line 2: add server command requires IP address argument" "line 2: " = true
    ∧ processCommand ⟨"add", "server", "web02", [], []⟩
        ⟨[⟨"web01", "10.1.2.121", ""⟩], [], [], [], []⟩ =
        .error "add server command requires IP address argument" :=
  c5_missing_ip_line_error ["add server web01 10.1.2.121"] "add server web02" ["# end"]
    ⟨[⟨"web01", "10.1.2.121", ""⟩], [], [], [], []⟩ ⟨"add", "server", "web02", [], []⟩
    rfl rfl rfl rfl rfl

/-- C5 counterexample: the claim holds for every input whose line N is a
malformed `add server` line, but when an earlier line already fails, the
run's error cites the earlier line: here line 2 is `add server web01`, yet
the message begins with `line 1: `, not `line 2: `. -/
theorem c5_counterexample :
    parseRun ["add server a", "add server web01"] =
      .error "line 1: add server command requires IP address argument"
    ∧ strStarts "line 1: add server command requires IP address argument" "line 2: " = false
    ∧ ParseF5Command "add server web01" = .ok (some ⟨"add", "server", "web01", [], []⟩)
    ∧ normalizeObjectType "server" = "server" :=
  ⟨rfl, rfl, rfl, rfl⟩

end Traefik7
